import Mathlib

/-!
Shallow embedding of the Redust server (an in-memory Redis-like key/value
server written in Rust) and proofs about the claims of its specification.

Conventions used throughout:
* Rust `String`s are Lean `String`s; `.len()` is `String.utf8ByteSize`
  (byte length).  All operations work on `String.data` (the character
  list), which for the ASCII data handled by the server coincides with
  Rust's byte-wise view.
* Machine integers are `Nat`/`Int` with the bounds of the Rust type made
  explicit in the parsing functions (`u32`/`u64`/`u128`/`i32`/`i64`).
* `std::time::Instant` / wall-clock milliseconds are a `Nat` parameter
  `now` threaded into the handlers that read the clock.
* Fallible/partial Rust code (`unwrap`, out-of-bounds indexing, arithmetic
  overflow under the default debug profile) is modelled by an explicit
  `panic` outcome; code that cannot complete without another task's signal
  is modelled by an explicit `hang` outcome.
-/

namespace Redust

/-- Character of a single decimal digit, as produced by Rust's `Display`
for unsigned integers (`format!("{}")`). -/
def digitChar (k : Nat) : Char := Char.ofNat (48 + k)

/-- Fuel-driven decimal digit expansion of a natural number; the fuel is
structural so that all evaluation reduces definitionally. -/
def natToDigitsAux : Nat → Nat → List Char
  | 0, _ => []
  | fuel+1, n =>
    if n < 10 then [digitChar n]
    else natToDigitsAux fuel (n / 10) ++ [digitChar (n % 10)]

/-- Decimal digit list of `n` (most significant first), as produced by
Rust's `format!("{}", n)` for unsigned integers. -/
def natToDigits (n : Nat) : List Char := natToDigitsAux (n + 1) n

/-- Decimal representation of a natural number, Rust's `format!("{}", n)`. -/
def natRepr (n : Nat) : String := ⟨natToDigits n⟩

/-- Numeric value of a digit list, the accumulator loop at the heart of
Rust's `str::parse` for unsigned integers. -/
def digitsVal (cs : List Char) : Nat :=
  cs.foldl (fun a c => a * 10 + (c.toNat - 48)) 0

/-- Test for an ASCII digit, as accepted by Rust's integer `parse`. -/
def is_digit_char (c : Char) : Bool := 48 ≤ c.toNat && c.toNat ≤ 57

/-- Parse a digit list; `none` on the empty list or any non-digit, as in
Rust's `str::parse` after the optional sign has been removed. -/
def parseNatCore (cs : List Char) : Option Nat :=
  if cs.isEmpty then none
  else if cs.all is_digit_char then some (digitsVal cs) else none

/-- Rust's unsigned `parse` accepts one optional leading `+`. -/
def stripLeadingPlus : List Char → List Char
  | '+' :: rest => rest
  | l => l

/-- Rust `s.parse::<uN>()` where `bound = 2^N`: digits with optional `+`,
and an `Err` (here `none`) when the value does not fit the type. -/
def rust_parse_u (bound : Nat) (s : String) : Option Nat :=
  match parseNatCore (stripLeadingPlus s.data) with
  | some n => if n < bound then some n else none
  | none => none

/-- Rust `s.parse::<uN>().unwrap_or(0)`. -/
def parse_u_or0 (bound : Nat) (s : String) : Nat := (rust_parse_u bound s).getD 0

/-- Rust `s.parse::<iN>()` where `bound = 2^(N-1)`: an optional sign,
digits, and an `Err` (`none`) outside `[-bound, bound)`. -/
def rust_parse_i (bound : Nat) (s : String) : Option Int :=
  match s.data with
  | '-' :: rest =>
    match parseNatCore rest with
    | some n => if n ≤ bound then some (-(n : Int)) else none
    | none => none
  | l =>
    match parseNatCore (stripLeadingPlus l) with
    | some n => if n < bound then some (n : Int) else none
    | none => none

/-- Rust `format!("{}", i)` for a signed integer. -/
def int_repr (i : Int) : String :=
  if i < 0 then ⟨'-' :: natToDigits i.natAbs⟩ else ⟨natToDigits i.natAbs⟩

/-- Rust `str::split('-')` on the character list: the separator-delimited
pieces, keeping empty pieces exactly as Rust does. -/
def splitDashData : List Char → List (List Char)
  | [] => [[]]
  | c :: rest =>
    let tailSplit := splitDashData rest
    if c = '-' then [] :: tailSplit
    else
      match tailSplit with
      | [] => [[c]]
      | p :: ps => (c :: p) :: ps

/-- Rust `s.split('-').collect::<Vec<String>>()`. -/
def split_dash (s : String) : List String := (splitDashData s.data).map (fun l => ⟨l⟩)

/-- Byte-wise (here: codepoint-wise, identical on this server's ASCII
data) lexicographic order of Rust's `Ord for String`. -/
def charListLt : List Char → List Char → Bool
  | [], [] => false
  | [], _ :: _ => true
  | _ :: _, [] => false
  | a :: as, b :: bs =>
    if a.toNat < b.toNat then true
    else if b.toNat < a.toNat then false
    else charListLt as bs

/-- The order `BTreeMap<String, _>` keys by. -/
def str_lt (a b : String) : Bool := charListLt a.data b.data

/-- ASCII case mapping of Rust's `to_uppercase` (the verbs and options
this server compares are all ASCII). -/
def charUpper (c : Char) : Char :=
  if 97 ≤ c.toNat ∧ c.toNat ≤ 122 then Char.ofNat (c.toNat - 32) else c

/-- ASCII case mapping of Rust's `to_lowercase`. -/
def charLower (c : Char) : Char :=
  if 65 ≤ c.toNat ∧ c.toNat ≤ 90 then Char.ofNat (c.toNat + 32) else c

/-- Rust `str::to_uppercase` (ASCII fragment). -/
def str_to_upper (s : String) : String := ⟨s.data.map charUpper⟩

/-- Rust `str::to_lowercase` (ASCII fragment). -/
def str_to_lower (s : String) : String := ⟨s.data.map charLower⟩

theorem digitChar_toNat {k : Nat} (h : k < 10) : (digitChar k).toNat = 48 + k := by
  interval_cases k <;> decide

theorem natToDigitsAux_spec :
    ∀ fuel n, n < fuel →
      natToDigitsAux fuel n ≠ [] ∧
      (∀ c ∈ natToDigitsAux fuel n, 48 ≤ c.toNat ∧ c.toNat ≤ 57) ∧
      (∀ a, List.foldl (fun x c => x * 10 + (c.toNat - 48)) a (natToDigitsAux fuel n) =
        a * 10 ^ (natToDigitsAux fuel n).length + n) := by
  intro fuel
  induction fuel with
  | zero => intro n h; omega
  | succ f ih =>
    intro n h
    by_cases h10 : n < 10
    · simp only [natToDigitsAux, if_pos h10]
      refine ⟨by simp, ?_, ?_⟩
      · intro c hc
        simp only [List.mem_singleton] at hc
        subst hc
        rw [digitChar_toNat h10]
        omega
      · intro a
        simp [digitChar_toNat h10]
    · have hd : n / 10 < f := by
        have h1 : n / 10 < n := Nat.div_lt_self (by omega) (by omega)
        omega
      obtain ⟨hne, hdig, hval⟩ := ih (n / 10) hd
      simp only [natToDigitsAux, if_neg h10]
      refine ⟨by simp, ?_, ?_⟩
      · intro c hc
        rw [List.mem_append] at hc
        rcases hc with hc | hc
        · exact hdig c hc
        · simp only [List.mem_singleton] at hc
          subst hc
          rw [digitChar_toNat (by omega)]
          omega
      · intro a
        rw [List.foldl_append, hval a]
        simp only [List.foldl_cons, List.foldl_nil, List.length_append,
          List.length_singleton]
        rw [digitChar_toNat (by omega : n % 10 < 10)]
        have hmod : 48 + n % 10 - 48 = n % 10 := by omega
        rw [hmod, pow_succ]
        have hdm : n / 10 * 10 + n % 10 = n := by omega
        calc (a * 10 ^ (natToDigitsAux f (n / 10)).length + n / 10) * 10 + n % 10
            = a * (10 ^ (natToDigitsAux f (n / 10)).length * 10) + (n / 10 * 10 + n % 10) := by
              ring
          _ = a * (10 ^ (natToDigitsAux f (n / 10)).length * 10) + n := by rw [hdm]

theorem natToDigits_ne_nil (n : Nat) : natToDigits n ≠ [] :=
  (natToDigitsAux_spec (n + 1) n (Nat.lt_succ_self n)).1

theorem natToDigits_digits (n : Nat) : ∀ c ∈ natToDigits n, 48 ≤ c.toNat ∧ c.toNat ≤ 57 :=
  (natToDigitsAux_spec (n + 1) n (Nat.lt_succ_self n)).2.1

theorem digitsVal_natToDigits (n : Nat) : digitsVal (natToDigits n) = n := by
  have h := (natToDigitsAux_spec (n + 1) n (Nat.lt_succ_self n)).2.2 0
  simpa [digitsVal, natToDigits] using h

theorem natToDigits_all_digit (n : Nat) : (natToDigits n).all is_digit_char = true := by
  rw [List.all_eq_true]
  intro c hc
  have := natToDigits_digits n c hc
  simp only [is_digit_char, Bool.and_eq_true, decide_eq_true_eq]
  omega

theorem natToDigits_no_dash (n : Nat) : '-' ∉ natToDigits n := by
  intro hmem
  have := natToDigits_digits n '-' hmem
  simp at this

theorem stripLeadingPlus_natToDigits (n : Nat) :
    stripLeadingPlus (natToDigits n) = natToDigits n := by
  cases hl : natToDigits n with
  | nil => rfl
  | cons c cs =>
    have hc : 48 ≤ c.toNat ∧ c.toNat ≤ 57 := by
      apply natToDigits_digits n
      rw [hl]; exact List.mem_cons_self c cs
    have hne : c ≠ '+' := by
      intro he; subst he; simp at hc
    simp only [stripLeadingPlus]
    split
    · rename_i heq
      rw [List.cons.injEq] at heq
      exact absurd heq.1 hne
    · rfl

theorem parseNatCore_natToDigits (n : Nat) : parseNatCore (natToDigits n) = some n := by
  rw [parseNatCore, if_neg (by simp [natToDigits_ne_nil n]),
    if_pos (natToDigits_all_digit n), digitsVal_natToDigits]

/-- Round trip: Rust parses back what it printed, provided the value fits
the target type. -/
theorem rust_parse_u_natRepr {bound n : Nat} (h : n < bound) :
    rust_parse_u bound (natRepr n) = some n := by
  rw [rust_parse_u]
  show (match parseNatCore (stripLeadingPlus (natToDigits n)) with
    | some n => if n < bound then some n else none
    | none => none) = some n
  rw [stripLeadingPlus_natToDigits, parseNatCore_natToDigits]
  simp [h]

theorem parse_u_or0_natRepr {bound n : Nat} (h : n < bound) :
    parse_u_or0 bound (natRepr n) = n := by
  rw [parse_u_or0, rust_parse_u_natRepr h]
  rfl

theorem parse_u_or0_lt (bound : Nat) (s : String) (h : 0 < bound) :
    parse_u_or0 bound s < bound := by
  rw [parse_u_or0, rust_parse_u]
  cases hp : parseNatCore (stripLeadingPlus s.data) with
  | none => simp only [Option.getD_none]; exact h
  | some n =>
    by_cases hn : n < bound
    · simp only [if_pos hn, Option.getD_some]; exact hn
    · simp only [if_neg hn, Option.getD_none]; exact h

theorem splitDashData_ne_nil (l : List Char) : splitDashData l ≠ [] := by
  cases l with
  | nil => simp [splitDashData]
  | cons c rest =>
    simp only [splitDashData]
    split
    · simp
    · split <;> simp

theorem splitDashData_no_dash {l : List Char} (h : '-' ∉ l) :
    splitDashData l = [l] := by
  induction l with
  | nil => rfl
  | cons c rest ih =>
    have hc : c ≠ '-' := fun he => h (he ▸ List.mem_cons_self c rest)
    have hr : '-' ∉ rest := fun hm => h (List.mem_cons_of_mem c hm)
    simp only [splitDashData, if_neg hc, ih hr]

theorem splitDashData_append {A B : List Char} (h : '-' ∉ A) :
    splitDashData (A ++ '-' :: B) = A :: splitDashData B := by
  induction A with
  | nil => simp [splitDashData]
  | cons c rest ih =>
    have hc : c ≠ '-' := fun he => h (he ▸ List.mem_cons_self c rest)
    have hr : '-' ∉ rest := fun hm => h (List.mem_cons_of_mem c hm)
    rw [List.cons_append]
    simp only [splitDashData, if_neg hc]
    rw [ih hr]

/-! RESP serialization helpers (src/protocol.rs and the inline `format!`
calls of the handlers). -/

def crlf : String := "\r\n"

/-- RESP bulk string, `format!("${}\r\n{}\r\n", s.len(), s)`. -/
def bulk_string (s : String) : String :=
  "$" ++ natRepr s.utf8ByteSize ++ crlf ++ s ++ crlf

/-- RESP nil bulk string. -/
def null_bulk : String := "$-1\r\n"

/-- The `serialize_resp_array` function of src/protocol.rs: an array of
bulk strings. -/
def serialize_resp_array (items : List String) : String :=
  items.foldl
    (fun resp item => resp ++ "$" ++ natRepr item.utf8ByteSize ++ crlf ++ item ++ crlf)
    ("*" ++ natRepr items.length ++ crlf)

/-! Data model (src/storage.rs). -/

/-- Field map of one stream entry.  Rust uses `HashMap<String, String>`
whose iteration order is arbitrary; it is modelled as an association list
in insertion order (one admissible iteration order). -/
abbrev Fields := List (String × String)

/-- The `Stream` struct of src/storage.rs.  Rust's
`BTreeMap<String, HashMap<String, String>>` is modelled as an association
list kept sorted by `str_lt`, the `Ord for String` order `BTreeMap` uses;
iteration order is the list order. -/
structure StreamV where
  entries : List (String × Fields)
  last_id : String
deriving DecidableEq, Repr

/-- The `DataStoreValue` enum of src/storage.rs. -/
inductive DataStoreValue where
  | string (s : String)
  | list (l : List String)
  | stream (s : StreamV)
deriving DecidableEq, Repr

/-- The `ValueEntry` struct of src/storage.rs; `expires_at` is the
absolute expiration instant in milliseconds. -/
structure ValueEntry where
  value : DataStoreValue
  expires_at : Option Nat
deriving DecidableEq, Repr

/-- The `ReplicaInfo` struct of src/storage.rs.  The `TcpStream` sink is
modelled by `sunk`, the bytes written to it so far. -/
structure ReplicaInfo where
  sunk : String
  offset : Nat
deriving DecidableEq, Repr

/-- The shared fields of the `AppState` struct of src/storage.rs.  The two
`HashMap`s (`db` and `blocked_clients`) are modelled as function maps; a
key whose waiter queue is `[]` is identified with an absent key, which is
exactly how the source maintains `blocked_clients` (empty queues are
removed).  The `stream_notifier` broadcast channel has no single-threaded
observable state and is not represented. -/
structure AppState where
  db : String → Option ValueEntry
  blocked_clients : String → List String
  master_replication_id : String
  master_replication_offset : Nat
  replicas : List ReplicaInfo
  slave_replication_offset : Nat
  replica_of : Option String

/-- `HashMap::insert` on the keyspace. -/
def dbInsert (m : String → Option ValueEntry) (k : String) (v : ValueEntry) :
    String → Option ValueEntry :=
  fun q => if q = k then some v else m q

/-- `HashMap::remove` on the keyspace. -/
def dbRemove (m : String → Option ValueEntry) (k : String) :
    String → Option ValueEntry :=
  fun q => if q = k then none else m q

/-- Update of one key's waiter queue. -/
def blockedSet (m : String → List String) (k : String) (q : List String) :
    String → List String :=
  fun x => if x = k then q else m x

/-- `BTreeMap::insert`: sorted insertion, replacing an equal key. -/
def btInsert (k : String) (v : Fields) : List (String × Fields) → List (String × Fields)
  | [] => [(k, v)]
  | (k', v') :: rest =>
    if str_lt k k' then (k, v) :: (k', v') :: rest
    else if k = k' then (k, v) :: rest
    else (k', v') :: btInsert k v rest

/-- `HashMap::insert` on a field map (replace the value of an existing
key, keeping its position as one admissible iteration order). -/
def assoc_put (k v : String) : Fields → Fields
  | [] => [(k, v)]
  | (k', v') :: rest => if k' = k then (k, v) :: rest else (k', v') :: assoc_put k v rest

/-! Stream engine (the XADD core of src/commands/stream.rs). -/

def invalid_id_err : String :=
  "-ERR Invalid stream ID specified as stream command argument\r\n"

def zero_id_err : String :=
  "-ERR The ID specified in XADD must be greater than 0-0\r\n"

def not_greater_err : String :=
  "-ERR The ID specified in XADD is equal or smaller than the target stream top item\r\n"

def wrongtype_err : String :=
  "-WRONGTYPE Operation against a key holding the wrong kind of value\r\n"

def not_int_err : String :=
  "-ERR value is not an integer or out of range\r\n"

/-- The `format!("{}-{}", cur_timestamp, cur_seq)` id text of XADD. -/
def id_string (ts seq : Nat) : String :=
  ⟨natToDigits ts ++ '-' :: natToDigits seq⟩

/-- Numeric (ms, seq) reading of an id text — the `split('-')` followed
by `parse::<u128>/<u64>().unwrap_or(0)` the source applies to stream
ids, and the integer-pair interpretation the specification compares ids
by. -/
def id_pair (s : String) : Nat × Nat :=
  (parse_u_or0 (2 ^ 128) ((split_dash s).getD 0 ""),
    parse_u_or0 (2 ^ 64) ((split_dash s).getD 1 ""))

/-- Strict lexicographic order on (ms, seq) pairs. -/
def pair_lt (a b : Nat × Nat) : Prop := a.1 < b.1 ∨ (a.1 = b.1 ∧ a.2 < b.2)

/-- Lexicographic order-or-equal on (ms, seq) pairs. -/
def pair_le (a b : Nat × Nat) : Prop := a.1 < b.1 ∨ (a.1 = b.1 ∧ a.2 ≤ b.2)

instance (a b : Nat × Nat) : Decidable (pair_lt a b) := by unfold pair_lt; infer_instance

instance (a b : Nat × Nat) : Decidable (pair_le a b) := by unfold pair_le; infer_instance

/-- The (ms, seq) pair the source parses out of a stream's `last_id`
(`last_timestamp`/`last_seq` in `handle_xadd`).  In every reachable
stream `last_id` contains a dash, so the source's direct indexing
`last_id[0]`/`last_id[1]` is modelled with a default that is only ever
used where the source would panic. -/
def last_pair (sv : StreamV) : Nat × Nat := id_pair sv.last_id

/-- Result of the ID-resolution phase of `handle_xadd`
(src/commands/stream.rs lines 80-108). -/
inductive GenResult where
  | invalid
  | seqOverflow
  | gen (ts seq : Nat)
deriving DecidableEq, Repr

/-- ID resolution of `handle_xadd`: `*` takes the wall clock with
sequence 0; `ms-*` auto-generates the sequence (`last_seq + 1` exactly
when the textual ms part equals the textual ms part of `last_id`);
`ms-seq` is parsed with `unwrap_or(0)`.  `seqOverflow` marks
`last_seq + 1` overflowing `u64`, an arithmetic-overflow panic under
the default (debug) profile. -/
def xadd_generate (now : Nat) (sv : StreamV) (id : String) : GenResult :=
  if id = "*" then .gen now 0
  else if (split_dash id).length ≠ 2 then .invalid
  else if (split_dash id).getD 1 "" = "*" then
    if (split_dash id).getD 0 "" = (split_dash sv.last_id).getD 0 "" then
      if (last_pair sv).2 + 1 < 2 ^ 64 then
        .gen (parse_u_or0 (2 ^ 128) ((split_dash id).getD 0 "")) ((last_pair sv).2 + 1)
      else .seqOverflow
    else .gen (parse_u_or0 (2 ^ 128) ((split_dash id).getD 0 "")) 0
  else
    .gen (parse_u_or0 (2 ^ 128) ((split_dash id).getD 0 ""))
      (parse_u_or0 (2 ^ 64) ((split_dash id).getD 1 ""))

/-- Outcome of one XADD on a stream value. -/
inductive XaddOut where
  | accepted (id : String)
  | rejected (err : String)
  | panicSeq
deriving DecidableEq, Repr

/-- Validation and insertion phase of `handle_xadd`
(src/commands/stream.rs lines 69-126), applied to one stream value. -/
def xadd_apply (now : Nat) (sv : StreamV) (id : String) (fields : Fields) :
    StreamV × XaddOut :=
  match xadd_generate now sv id with
  | .invalid => (sv, .rejected invalid_id_err)
  | .seqOverflow => (sv, .panicSeq)
  | .gen ts seq =>
    if seq = 0 ∧ ts = 0 then (sv, .rejected zero_id_err)
    else if ts < (last_pair sv).1 ∨ (ts = (last_pair sv).1 ∧ seq ≤ (last_pair sv).2) then
      (sv, .rejected not_greater_err)
    else
      ({ entries := btInsert (id_string ts seq) fields sv.entries,
         last_id := id_string ts seq },
        .accepted (id_string ts seq))

/-- The entries visited by `handle_xrange`'s `range` call
(src/commands/stream.rs lines 167-171), after the `-0` completion of the
bounds: a contiguous, order-preserving slice of the sorted map. -/
def xrange_entries (sv : StreamV) (startv endv : String) : List (String × Fields) :=
  if endv = "+" then sv.entries.filter (fun p => !str_lt p.1 startv)
  else sv.entries.filter (fun p => !str_lt p.1 startv && !str_lt endv p.1)

theorem split_dash_id_string (a b : Nat) :
    split_dash (id_string a b) = [natRepr a, natRepr b] := by
  have hd : (id_string a b).data = natToDigits a ++ '-' :: natToDigits b := rfl
  rw [split_dash, hd, splitDashData_append (natToDigits_no_dash a),
    splitDashData_no_dash (natToDigits_no_dash b)]
  rfl

theorem id_pair_id_string {a b : Nat} (ha : a < 2 ^ 128) (hb : b < 2 ^ 64) :
    id_pair (id_string a b) = (a, b) := by
  rw [id_pair, split_dash_id_string]
  show (parse_u_or0 (2 ^ 128) (natRepr a), parse_u_or0 (2 ^ 64) (natRepr b)) = (a, b)
  rw [parse_u_or0_natRepr ha, parse_u_or0_natRepr hb]

/-! Command handlers (src/commands/). -/

/-- Outcome of one handler invocation.  `panic` marks a Rust panic
(`unwrap` on `Err`/`None`, out-of-bounds indexing, `Vec::remove` on an
empty vector, arithmetic overflow under the default debug profile);
`hang` marks an await that can never be signalled within a single
request; `fuelOut` is the artificial recursion bound of the embedding
and is unreachable from dispatcher-built states. -/
inductive HResult where
  | ok (resp : String)
  | panic
  | hang
  | fuelOut
deriving DecidableEq, Repr

/-- The replica fan-out loop repeated in the write handlers: serialize
the command array and append the bytes to every replica's sink. -/
def fanout (replicas : List ReplicaInfo) (command_with_args : List String) :
    List ReplicaInfo :=
  replicas.map (fun r => { r with sunk := r.sunk ++ serialize_resp_array command_with_args })

/-- The `replicate_command` function of src/protocol.rs: write the
serialized command to every replica, and advance the master replication
offset by its byte length — but only when the replica list is non-empty. -/
def replicate_command (st : AppState) (command_with_args : List String) : AppState :=
  let serialized := serialize_resp_array command_with_args
  let cmd_len := serialized.utf8ByteSize
  let replicas1 := fanout st.replicas command_with_args
  if replicas1.isEmpty then { st with replicas := replicas1 }
  else
    { st with
      replicas := replicas1
      master_replication_offset := st.master_replication_offset + cmd_len }

/-- The expiry test `entry.expires_at.map_or(false, |e| Instant::now() > e)`. -/
def is_expired (expires_at : Option Nat) (now : Nat) : Bool :=
  match expires_at with
  | some e => decide (e < now)
  | none => false

/-- `handle_ping` of src/commands/general.rs. -/
def handle_ping : String := "+PONG\r\n"

/-- `handle_echo` of src/commands/general.rs. -/
def handle_echo (args : List String) : String :=
  match args with
  | arg :: _ => bulk_string arg
  | [] => "-ERR wrong number of arguments for 'echo' command\r\n"

/-- `handle_info` of src/commands/general.rs. -/
def handle_info (st : AppState) : String :=
  let role_str := if st.replica_of.isSome then "role:slave" else "role:master"
  let replid_str := "master_replid:" ++ st.master_replication_id
  let reploff_str := "master_repl_offset:" ++ natRepr st.master_replication_offset
  bulk_string (role_str ++ crlf ++ replid_str ++ crlf ++ reploff_str)

/-- `handle_set` of src/commands/string.rs: store the value with an
optional `PX` deadline, reply `+OK`, and write the re-serialized command
to every replica (the master replication offset is not touched here). -/
def handle_set (now : Nat) (st : AppState) (args : List String) : AppState × String :=
  match args with
  | key :: value :: _ =>
    let expires_at : Option Nat :=
      if 2 < args.length ∧ str_to_upper (args.getD 2 "") = "PX" then
        if 3 < args.length then
          match rust_parse_u (2 ^ 64) (args.getD 3 "") with
          | some ms => some (now + ms)
          | none => none
        else none
      else none
    ({ st with
        db := dbInsert st.db key { value := .string value, expires_at := expires_at }
        replicas := fanout st.replicas ("SET" :: args) },
      "+OK\r\n")
  | _ => (st, "-ERR wrong number of arguments for 'set' command\r\n")

/-- `handle_get` of src/commands/string.rs: observe expiration (deleting
the key on an expired read), reply the string value, and reply WRONGTYPE
for a present non-string value. -/
def handle_get (now : Nat) (st : AppState) (args : List String) : AppState × String :=
  match args with
  | key :: _ =>
    match st.db key with
    | some entry =>
      if is_expired entry.expires_at now then
        ({ st with db := dbRemove st.db key }, null_bulk)
      else
        match entry.value with
        | .string val => (st, bulk_string val)
        | _ => (st, wrongtype_err)
    | none => (st, null_bulk)
  | [] => (st, "-ERR wrong number of arguments for 'get' command\r\n")

/-- `handle_incr` of src/commands/string.rs.  The `prev + 1` on
`i64::MAX` is an arithmetic-overflow panic under the default profile.
Note the source fans out to replicas only in the key-absent branch. -/
def handle_incr (st : AppState) (args : List String) : AppState × HResult :=
  match args with
  | key :: _ =>
    match st.db key with
    | some entry =>
      match entry.value with
      | .string val =>
        match rust_parse_i (2 ^ 63) val with
        | some prev =>
          if prev = 2 ^ 63 - 1 then (st, .panic)
          else
            let newval := int_repr (prev + 1)
            ({ st with db := dbInsert st.db key { entry with value := .string newval } },
              .ok (":" ++ newval ++ crlf))
        | none => (st, .ok not_int_err)
      | _ => (st, .ok not_int_err)
    | none =>
      ({ st with
          db := dbInsert st.db key { value := .string "1", expires_at := none }
          replicas := fanout st.replicas ("INCR" :: args) },
        .ok ":1\r\n")
  | [] => (st, .ok "-ERR wrong number of arguments for 'incr' command\r\n")

/-- The push body of `handle_lpush_rpush` (src/commands/list.rs lines
26-72): take at most one waiter off the key's FIFO queue (removing the
queue when it empties), push all elements, reply the new length, and fan
out to the replicas.  The one-shot signal to the selected waiter has no
further effect on this shared state; its sequencing is modelled
separately by `push_critical` and `lpush_event_trace`. -/
def do_push (is_lpush : Bool) (st : AppState) (key : String) (expires : Option Nat)
    (l : List String) (elems : List String) (args : List String) : AppState × String :=
  let q := st.blocked_clients key
  let blocked1 := blockedSet st.blocked_clients key q.tail
  let newList := if is_lpush then elems.foldl (fun acc e => e :: acc) l else l ++ elems
  ({ st with
      db := dbInsert st.db key { value := .list newList, expires_at := expires }
      blocked_clients := blocked1
      replicas := fanout st.replicas ((if is_lpush then "LPUSH" else "RPUSH") :: args) },
    ":" ++ natRepr newList.length ++ crlf)

/-- `handle_lpush_rpush` of src/commands/list.rs. -/
def handle_lpush_rpush (is_lpush : Bool) (st : AppState) (args : List String) :
    AppState × String :=
  match args with
  | key :: elem0 :: restElems =>
    match st.db key with
    | some entry =>
      match entry.value with
      | .list l => do_push is_lpush st key entry.expires_at l (elem0 :: restElems) args
      | _ => (st, wrongtype_err)
    | none => do_push is_lpush st key none [] (elem0 :: restElems) args
  | _ => (st, "-ERR wrong number of arguments for command\r\n")

/-- `handle_lrange` of src/commands/list.rs, including its quirks: the
`end < 0` branch re-clamps `start` rather than `end`, and a present
non-list value gets a nil reply. -/
def handle_lrange (st : AppState) (args : List String) : String :=
  match args with
  | key :: start_ind :: end_ind :: _ =>
    match st.db key with
    | some entry =>
      match entry.value with
      | .list val =>
        match rust_parse_i (2 ^ 31) start_ind with
        | none => not_int_err
        | some s0 =>
          match rust_parse_i (2 ^ 31) end_ind with
          | none => not_int_err
          | some e0 =>
            let n : Int := val.length
            let s1 := if s0 < 0 then max (n + s0) 0 else s0
            let s2 := if e0 < 0 then max s1 0 else s1
            let e1 := if e0 < 0 then n + e0 else e0
            let e2 := min e1 (n - 1)
            if s2 > e2 ∨ s2 ≥ n then "*0\r\n"
            else
              let slice := (val.drop s2.toNat).take (e2 - s2 + 1).toNat
              slice.foldl (fun resp ele => resp ++ bulk_string ele)
                ("*" ++ natRepr (e2 - s2 + 1).toNat ++ crlf)
      | _ => null_bulk
    | none => "*0\r\n"
  | _ => "-ERR wrong number of arguments for 'lrange' command\r\n"

/-- `handle_llen` of src/commands/list.rs. -/
def handle_llen (st : AppState) (args : List String) : String :=
  match args with
  | key :: _ =>
    match st.db key with
    | some entry =>
      match entry.value with
      | .list val => ":" ++ natRepr val.length ++ crlf
      | _ => ":0\r\n"
    | none => ":0\r\n"
  | [] => "-ERR wrong number of arguments for 'llen' command\r\n"

/-- `handle_lpop` of src/commands/list.rs.  The count is taken with
`parse::<u32>().unwrap()` — a panic on any non-`u32` argument — and the
removal loop calls `Vec::remove(0)` `count` times with no emptiness
check — a panic when the count exceeds the list length (after having
removed every element).  Every path through a present entry, including
the WRONGTYPE reply, fans the command out to the replicas. -/
def handle_lpop (st : AppState) (args : List String) : AppState × HResult :=
  match args with
  | key :: rest =>
    match st.db key with
    | some entry =>
      match entry.value with
      | .list val =>
        match rest with
        | count_str :: _ =>
          match rust_parse_u (2 ^ 32) count_str with
          | none => (st, .panic)
          | some cnt =>
            if cnt ≤ val.length then
              let resp := (val.take cnt).foldl (fun r ele => r ++ bulk_string ele)
                ("*" ++ natRepr cnt ++ crlf)
              ({ st with
                  db := dbInsert st.db key { entry with value := .list (val.drop cnt) }
                  replicas := fanout st.replicas ("LPOP" :: args) },
                .ok resp)
            else
              ({ st with db := dbInsert st.db key { entry with value := .list [] } },
                .panic)
        | [] =>
          match val with
          | [] => (st, .panic)
          | ele :: tl =>
            ({ st with
                db := dbInsert st.db key { entry with value := .list tl }
                replicas := fanout st.replicas ("LPOP" :: args) },
              .ok (bulk_string ele))
      | _ => ({ st with replicas := fanout st.replicas ("LPOP" :: args) }, .ok wrongtype_err)
    | none => (st, .ok null_bulk)
  | [] => (st, .ok "-ERR wrong number of arguments for 'lpop' command\r\n")

/-- Model of `args.last().unwrap().parse::<f32>()` restricted to plain
decimal numerals (optional sign, digits, at most one dot); the claims
never exercise the rest of the `f32` grammar.  Returns whether the
parsed value is `0.0`. -/
def parse_f32_zero (s : String) : Option Bool :=
  let l := match s.data with
    | '-' :: rest => rest
    | '+' :: rest => rest
    | l => l
  let digits := l.filter (fun c => c ≠ '.')
  if digits.isEmpty then none
  else if digits.all is_digit_char ∧ (l.filter (fun c => c = '.')).length ≤ 1 ∧
      l.all (fun c => is_digit_char c || c = '.') then
    some (digits.all (fun c => c = '0'))
  else none

/-- The `[key, element]` reply of BLPOP. -/
def blpop_item (key ele : String) : String :=
  "*2\r\n" ++ bulk_string key ++ bulk_string ele

/-- The per-key loop of `handle_blpop` (src/commands/list.rs lines
244-327), under the single-request semantics in which no concurrent
push can signal the registered waiter: a non-empty list is popped and
returned immediately (skipping the replica fan-out, as the source's
early return does); otherwise the client registers, then either hangs
forever (timeout 0) or times out, cancels its registration (a net no-op
on the registry, since the freshly generated `nanoid` is removed again)
and falls through to the next key after writing a nil reply.  When the
loop completes, the command is fanned out to the replicas. -/
def blpop_loop (st : AppState) (is_zero : Bool) (args : List String) (acc : String) :
    List String → AppState × HResult
  | [] => ({ st with replicas := fanout st.replicas ("BLPOP" :: args) }, .ok acc)
  | key :: moreKeys =>
    let blockPath :=
      if is_zero then
        ({ st with blocked_clients :=
            blockedSet st.blocked_clients key (st.blocked_clients key ++ ["nanoid"]) },
          HResult.hang)
      else blpop_loop st is_zero args (acc ++ null_bulk) moreKeys
    match st.db key with
    | some entry =>
      match entry.value with
      | .list (ele :: tl) =>
        ({ st with db := dbInsert st.db key { entry with value := .list tl } },
          .ok (blpop_item key ele))
      | _ => blockPath
    | none => blockPath

/-- `handle_blpop` of src/commands/list.rs. -/
def handle_blpop (st : AppState) (args : List String) : AppState × HResult :=
  if args.length < 2 then
    (st, .ok "-ERR wrong number of arguments for 'blpop' command\r\n")
  else
    match parse_f32_zero (args.getLast?.getD "") with
    | none => (st, .ok not_int_err)
    | some is_zero => blpop_loop st is_zero args "" (args.take (args.length - 1))

/-- `handle_type` of src/commands/stream.rs. -/
def handle_type (st : AppState) (args : List String) : String :=
  if args.length ≠ 1 then "-ERR wrong number of arguments for 'type' command\r\n"
  else
    match st.db (args.getD 0 "") with
    | some entry =>
      match entry.value with
      | .list _ => "+list\r\n"
      | .string _ => "+string\r\n"
      | .stream _ => "+stream\r\n"
    | none => "+none\r\n"

/-- The field-map construction loop of `handle_xadd`
(`for i in (2..args.len()).step_by(2)`); `none` is the odd-trailing
arity error. -/
def fields_of_args_aux (acc : Fields) : List String → Option Fields
  | [] => some acc
  | [_] => none
  | f :: v :: rest => fields_of_args_aux (assoc_put f v acc) rest

def fields_of_args (l : List String) : Option Fields := fields_of_args_aux [] l

/-- Body of `handle_xadd` once the key's entry is at hand (`st1` already
reflects the `or_insert` of a fresh empty stream for an absent key).
Error replies return before the `replicate_command` call; a successful
insert and the present-but-not-a-stream fallthrough (which writes no
client reply at all) reach it. -/
def xadd_with_entry (now : Nat) (st1 : AppState) (key id : String) (args : List String)
    (entry : ValueEntry) : AppState × HResult :=
  match entry.value with
  | .stream sv =>
    match fields_of_args (args.drop 2) with
    | none => (st1, .ok "-ERR wrong number of arguments for 'xadd' command\r\n")
    | some fields =>
      match xadd_apply now sv id fields with
      | (_, .rejected err) => (st1, .ok err)
      | (_, .panicSeq) => (st1, .panic)
      | (sv1, .accepted calc_id) =>
        let st2 := { st1 with db := dbInsert st1.db key { entry with value := .stream sv1 } }
        (replicate_command st2 ("XADD" :: args), .ok (bulk_string calc_id))
  | _ => (replicate_command st1 ("XADD" :: args), .ok "")

/-- `handle_xadd` of src/commands/stream.rs. -/
def handle_xadd (now : Nat) (st : AppState) (args : List String) : AppState × HResult :=
  if args.length < 2 then
    (st, .ok "-ERR wrong number of arguments for 'stream' command\r\n")
  else
    let key := args.getD 0 ""
    let id := args.getD 1 ""
    match st.db key with
    | some entry => xadd_with_entry now st key id args entry
    | none =>
      let entry : ValueEntry :=
        { value := .stream { entries := [], last_id := "0-0" }, expires_at := none }
      xadd_with_entry now { st with db := dbInsert st.db key entry } key id args entry

/-- Serialization of one `[id, [field, value, ...]]` XRANGE element. -/
def xrange_fmt_entry (resp : String) (p : String × Fields) : String :=
  p.2.foldl (fun r fv => r ++ bulk_string fv.1 ++ bulk_string fv.2)
    (resp ++ "*2\r\n" ++ bulk_string p.1 ++ "*" ++ natRepr (p.2.length * 2) ++ crlf)

/-- `handle_xrange` of src/commands/stream.rs. -/
def handle_xrange (st : AppState) (args : List String) : String :=
  if args.length < 3 then "-ERR wrong number of arguments for 'xrange' command\r\n"
  else
    let key := args.getD 0 ""
    let start0 := args.getD 1 ""
    let end0 := args.getD 2 ""
    let startv := if ¬ start0.data.contains '-' then start0 ++ "-0" else start0
    let endv := if ¬ end0.data.contains '-' ∧ end0 ≠ "+" then end0 ++ "-0" else end0
    match st.db key with
    | some entry =>
      match entry.value with
      | .stream sv =>
        let range := xrange_entries sv startv endv
        range.foldl xrange_fmt_entry ("*" ++ natRepr range.length ++ crlf)
      | _ => wrongtype_err
    | none => null_bulk

/-- The `$` resolution of `handle_xread` for one id. -/
def xread_resolve_id (st : AppState) (key id : String) : String :=
  match st.db key with
  | some entry =>
    match entry.value with
    | .stream sv => if id = "$" then sv.last_id else id
    | _ => id
  | none => id

/-- The `mod_args` construction of `handle_xread`: ids (the last
`no_of_keys` arguments) are `$`-resolved against the current streams. -/
def xread_mod_args (st : AppState) (args : List String) (no_of_keys start_idx : Nat) :
    List String :=
  (List.range args.length).map (fun j =>
    if args.length - no_of_keys ≤ j then
      xread_resolve_id st
        (args.getD (start_idx + (j - (args.length - no_of_keys))) "")
        (args.getD j "")
    else args.getD j "")

/-- The `check_for_data` closure of `handle_xread`: per key, the entries
with id strictly greater (in `BTreeMap` order) than the supplied id. -/
def xread_check (st : AppState) (margs : List String) (no_of_keys start_idx : Nat) :
    Option (List (String × List (String × Fields))) :=
  let results := (List.range no_of_keys).filterMap (fun i =>
    let key := margs.getD (i + start_idx) ""
    let id := margs.getD (margs.length - no_of_keys + i) ""
    match st.db key with
    | some entry =>
      match entry.value with
      | .stream sv =>
        let entries := sv.entries.filter (fun p => str_lt id p.1)
        if entries.isEmpty then none else some (key, entries)
      | _ => none
    | none => none)
  if results.isEmpty then none else some results

/-- Response formatting of `handle_xread`. -/
def xread_format (results : List (String × List (String × Fields))) : String :=
  results.foldl (fun resp kr =>
    kr.2.foldl (fun r e =>
        e.2.foldl (fun r2 fv => r2 ++ bulk_string fv.1 ++ bulk_string fv.2)
          (r ++ "*2\r\n" ++ bulk_string e.1 ++ "*" ++ natRepr (e.2.length * 2) ++ crlf))
      (resp ++ "*2\r\n" ++ bulk_string kr.1 ++ "*" ++ natRepr kr.2.length ++ crlf))
    ("*" ++ natRepr results.length ++ crlf)

/-- Fast path plus blocking path of `handle_xread` under the
single-request semantics: with no concurrent XADD the broadcast channel
never fires, so a timed block elapses and replies nil and `BLOCK 0`
waits forever. -/
def xread_run (st : AppState) (args : List String) (no_of_keys start_idx : Nat)
    (blockTimeout : Option Nat) : HResult :=
  let margs := xread_mod_args st args no_of_keys start_idx
  match xread_check st margs no_of_keys start_idx with
  | some results => .ok (xread_format results)
  | none =>
    match blockTimeout with
    | some t => if 0 < t then .ok null_bulk else .hang
    | none => .ok null_bulk

/-- `handle_xread` of src/commands/stream.rs.  `args[0]` and `args[1]`
are indexed directly (a panic on missing arguments), and
`args.len() - 3` underflows `usize` (a debug-profile panic) when
`BLOCK` is given fewer than three arguments. -/
def handle_xread (st : AppState) (args : List String) : HResult :=
  match args with
  | [] => .panic
  | a0 :: restArgs =>
    if str_to_lower a0 = "block" then
      match restArgs with
      | [] => .panic
      | a1 :: _ =>
        let timeout_ms := parse_u_or0 (2 ^ 64) a1
        if args.length < 3 then .panic
        else xread_run st args ((args.length - 3) / 2) 3 (some timeout_ms)
    else xread_run st args ((args.length - 1) / 2) 1 none

/-- `handle_replconf` of src/commands/replication.rs.  Note there is no
`ACK` arm: a `REPLCONF ACK <n>` frame falls through to the catch-all
`+OK` reply and no offset is updated anywhere. -/
def handle_replconf (st : AppState) (args : List String) : String :=
  if 2 ≤ args.length then
    match str_to_upper (args.getD 0 "") with
    | "GETACK" =>
      serialize_resp_array ["REPLCONF", "ACK", natRepr st.slave_replication_offset]
    | "LISTENING-PORT" => "+OK\r\n"
    | "CAPA" => "+OK\r\n"
    | _ => "+OK\r\n"
  else "+OK\r\n"

def empty_rdb_len : Nat := 88

/-- Placeholder for the 88-byte binary RDB blob of `handle_psync` (the
base64 constant of src/commands/replication.rs decodes to non-UTF-8
bytes, which a Lean `String` cannot carry); only its length is ever
observable to the claims. -/
def empty_rdb_payload : String := ⟨List.replicate 88 '#'⟩

/-- `handle_psync` of src/commands/replication.rs. -/
def handle_psync (st : AppState) (args : List String) : String :=
  if args.length < 2 then "-ERR wrong number of arguments for 'psync' command\r\n"
  else
    "+FULLRESYNC " ++ st.master_replication_id ++ " " ++
      natRepr st.master_replication_offset ++ crlf ++
      "$" ++ natRepr empty_rdb_len ++ crlf ++ empty_rdb_payload

/-- The `TransactionState` struct of src/storage.rs. -/
structure TransactionState where
  in_transaction : Bool
  queued_commands : List (List String)
deriving DecidableEq, Repr

/-- `handle_multi` of src/commands/transaction.rs: clear the queue,
enter the transaction, reply `+OK`. -/
def handle_multi (ts : TransactionState) : TransactionState × String :=
  ({ ts with in_transaction := true, queued_commands := [] }, "+OK\r\n")

/-- `handle_discard` of src/commands/transaction.rs. -/
def handle_discard (ts : TransactionState) : TransactionState × String :=
  if ¬ ts.in_transaction then (ts, "-ERR DISCARD without MULTI\r\n")
  else ({ ts with in_transaction := false, queued_commands := [] }, "+OK\r\n")

/-- The replay loop of `handle_exec`: run each queued command in order
against the live state, concatenating the bytes each one writes to its
(duplex-captured) response sink; a panicking or hanging command aborts
the whole replay exactly as it would abort the task.  The runner is a
parameter because the source's `handle_exec` calls back into
`handle_command`, which is defined by recursion on fuel below. -/
def run_queued_with
    (run : AppState → TransactionState → List String →
      AppState × TransactionState × HResult)
    (st : AppState) (ts : TransactionState) :
    List (List String) → AppState × TransactionState × HResult
  | [] => (st, ts, .ok "")
  | c :: cs =>
    match run st ts c with
    | (st1, ts1, .ok resp) =>
      match run_queued_with run st1 ts1 cs with
      | (st2, ts2, .ok acc) => (st2, ts2, .ok (resp ++ acc))
      | ab => ab
    | ab => ab

/-- `handle_exec` of src/commands/transaction.rs, parameterized by the
command runner (see `run_queued_with`). -/
def handle_exec_with
    (run : AppState → TransactionState → List String →
      AppState × TransactionState × HResult)
    (st : AppState) (ts : TransactionState) :
    AppState × TransactionState × HResult :=
  if ¬ ts.in_transaction then (st, ts, .ok "-ERR EXEC without MULTI\r\n")
  else if ts.queued_commands.isEmpty then
    (st, { ts with in_transaction := false }, .ok "*0\r\n")
  else
    let queued := ts.queued_commands
    let ts1 : TransactionState := { in_transaction := false, queued_commands := [] }
    match run_queued_with run st ts1 queued with
    | (st2, ts2, .ok acc) =>
      (st2, ts2, .ok ("*" ++ natRepr queued.length ++ crlf ++ acc))
    | ab => ab

/-- Rust `format!("{:?}", args.get(0))` on an `Option<&String>` (the
escaping `{:?}` would apply inside the argument is not modelled; no
claim exercises it). -/
def opt_debug : Option String → String
  | some s => "Some(\"" ++ s ++ "\")"
  | none => "None"

/-- The unknown-verb reply of `handle_command`. -/
def unknown_err (command : String) (args : List String) : String :=
  "-ERR unknown command `" ++ command ++ "`, with args beginning with: " ++
    opt_debug args.head? ++ crlf

/-- `handle_command` of src/commands/mod.rs: queue any non-transaction
verb while in a transaction, otherwise dispatch on the uppercased verb.
The `fuel` bounds the recursion through `EXEC` (the only re-entrant
path); it is decremented once per queued command replayed, so any
dispatcher-reachable state needs only `queued_commands.length + 1`. -/
def handle_command : Nat → Nat → AppState → TransactionState → List String →
    AppState × TransactionState × HResult
  | 0, _, st, ts, _ => (st, ts, .fuelOut)
  | fuel+1, now, st, ts, parsed =>
    match parsed with
    | [] => (st, ts, .panic)
    | _ =>
      let command := str_to_upper (parsed.getD 0 "")
      let args := parsed.tail
      if ts.in_transaction ∧ command ≠ "MULTI" ∧ command ≠ "EXEC" ∧ command ≠ "DISCARD" then
        (st, { ts with queued_commands := ts.queued_commands ++ [parsed] }, .ok "+QUEUED\r\n")
      else
        match command with
        | "PING" => (st, ts, .ok handle_ping)
        | "ECHO" => (st, ts, .ok (handle_echo args))
        | "INFO" => (st, ts, .ok (handle_info st))
        | "SET" => let r := handle_set now st args; (r.1, ts, .ok r.2)
        | "GET" => let r := handle_get now st args; (r.1, ts, .ok r.2)
        | "INCR" => let r := handle_incr st args; (r.1, ts, r.2)
        | "LPUSH" => let r := handle_lpush_rpush true st args; (r.1, ts, .ok r.2)
        | "RPUSH" => let r := handle_lpush_rpush false st args; (r.1, ts, .ok r.2)
        | "LRANGE" => (st, ts, .ok (handle_lrange st args))
        | "LLEN" => (st, ts, .ok (handle_llen st args))
        | "LPOP" => let r := handle_lpop st args; (r.1, ts, r.2)
        | "BLPOP" => let r := handle_blpop st args; (r.1, ts, r.2)
        | "TYPE" => (st, ts, .ok (handle_type st args))
        | "XADD" => let r := handle_xadd now st args; (r.1, ts, r.2)
        | "XRANGE" => (st, ts, .ok (handle_xrange st args))
        | "XREAD" => (st, ts, handle_xread st args)
        | "MULTI" => let r := handle_multi ts; (st, r.1, .ok r.2)
        | "EXEC" => handle_exec_with (handle_command fuel now) st ts
        | "DISCARD" => let r := handle_discard ts; (st, r.1, .ok r.2)
        | "REPLCONF" => (st, ts, .ok (handle_replconf st args))
        | "PSYNC" => (st, ts, .ok (handle_psync st args))
        | _ => (st, ts, .ok (unknown_err command args))

/-- The per-connection read loop feeding parsed commands to
`handle_command` one at a time (src/server.rs `handle_stream`),
collecting each command's outcome. -/
def run_sequence
    (run : AppState → TransactionState → List String →
      AppState × TransactionState × HResult)
    (st : AppState) (ts : TransactionState) :
    List (List String) → AppState × TransactionState × List HResult
  | [] => (st, ts, [])
  | c :: cs =>
    let r := run st ts c
    let rest := run_sequence run r.1 r.2.1 cs
    (rest.1, rest.2.1, r.2.2 :: rest.2.2)

/-- Concatenation of captured response byte strings. -/
def concat_strings : List String → String
  | [] => ""
  | s :: rest => s ++ concat_strings rest

/-! The BLPOP handoff kernel (src/commands/list.rs lines 26-57 on the
push side and 291-312 on the wake side), restricted to one key: the
list value and the key's FIFO waiter queue, the two pieces of shared
state the handoff touches. -/

/-- One key's view of the shared state in the BLPOP handoff. -/
structure PushWorld where
  list : List String
  waiters : List String
deriving DecidableEq, Repr

/-- The critical section of `handle_lpush_rpush` under the Store lock:
select at most one waiter (the queue's front), then push every element;
the selected waiter is the one signalled (still under the lock — see
`lpush_event_trace`). -/
def push_critical (is_lpush : Bool) (elems : List String) (w : PushWorld) :
    PushWorld × Option String :=
  let selected := w.waiters.head?
  let newList :=
    if is_lpush then elems.foldl (fun acc e => e :: acc) w.list else w.list ++ elems
  ({ list := newList, waiters := w.waiters.tail }, selected)

/-- The woken BLPOP client's step 4 (src/commands/list.rs lines
294-311): re-acquire the Store lock and pop the head element. -/
def wake_pop (w : PushWorld) : PushWorld × Option String :=
  match w.list with
  | [] => (w, none)
  | e :: rest => ({ w with list := rest }, some e)

/-- Lock/signal event skeleton of `handle_lpush_rpush`: the `db` guard
is taken at src/commands/list.rs line 20 and lives until the handler
returns (line 72), the waiter is selected at lines 29-42, the elements
are pushed at lines 45-51, and the one-shot signal is sent at lines
54-57 — i.e. while the Store lock is still held. -/
inductive PushEvent where
  | acquire_store
  | select_waiter
  | push_elems
  | signal_waiter
  | release_store
deriving DecidableEq, BEq, Repr

/-- Ordered events of one `handle_lpush_rpush` invocation on a list
key, `has_waiter` indicating whether a waiter was selected. -/
def lpush_event_trace (has_waiter : Bool) : List PushEvent :=
  [.acquire_store, .select_waiter, .push_elems] ++
    (if has_waiter then [.signal_waiter] else []) ++ [.release_store]

theorem push_foldl_length (l : List String) (es : List String) :
    (es.foldl (fun acc e => e :: acc) l).length = l.length + es.length := by
  induction es generalizing l with
  | nil => simp
  | cons e es ih =>
    simp only [List.foldl_cons, ih, List.length_cons]
    omega

/-! Concrete states used by the per-claim evaluations. -/

/-- A freshly started master with one connected replica (offset 0,
nothing written to its sink yet) and an empty keyspace. -/
def master_with_one_replica : AppState where
  db := fun _ => none
  blocked_clients := fun _ => []
  master_replication_id := "r"
  master_replication_offset := 0
  replicas := [{ sunk := "", offset := 0 }]
  slave_replication_offset := 0
  replica_of := none

/-- `master_with_one_replica` after `RPUSH k x`, so `k` holds the list
`["x"]`. -/
def list_state : AppState :=
  (handle_lpush_rpush false master_with_one_replica ["k", "x"]).1

/-- `master_with_one_replica` after `RPUSH k x y`, so `k` holds the
list `["x", "y"]`. -/
def two_list_state : AppState :=
  (handle_lpush_rpush false master_with_one_replica ["k", "x", "y"]).1

/-! Claim C1. -/

/-- C1 counterexample: on the master with one connected replica, after
a client sends `SET a b` the serialized command (27 bytes, not the 31
the claim names) has been written to the replica's sink, but
`master_replication_offset` is still 0, and INFO reports
`master_repl_offset:0` — the handler never adds the serialization's
byte length to the offset, contradicting the claim. -/
theorem set_offset_counterexample :
    (handle_set 0 master_with_one_replica ["a", "b"]).1.master_replication_offset = 0 ∧
    (serialize_resp_array ["SET", "a", "b"]).utf8ByteSize = 27 ∧
    (handle_set 0 master_with_one_replica ["a", "b"]).1.replicas =
      [{ sunk := serialize_resp_array ["SET", "a", "b"], offset := 0 }] ∧
    handle_info (handle_set 0 master_with_one_replica ["a", "b"]).1 =
      "$50\r\nrole:master\r\nmaster_replid:r\r\nmaster_repl_offset:0\r\n" := by
  refine ⟨rfl, by decide, by decide, rfl⟩

/-- C1 (amended): a successful SET, LPUSH or RPUSH re-serializes the
command array and writes those bytes to every connected replica's sink;
LPOP does so on every reply path through a present entry (the no-count
pop, an in-range count, and the WRONGTYPE reply); INCR does so only
when it creates a missing key — its existing-key paths write to no
replica.  None of these handlers touches `master_replication_offset`
(so INFO after `SET a b` reports offset 0); only XADD, through
`replicate_command`, adds the serialization's byte length to the
offset, once per command, and only when at least one replica is
connected. -/
theorem set_propagation_amended :
    (∀ now st key value rest,
      (handle_set now st (key :: value :: rest)).1.master_replication_offset =
          st.master_replication_offset ∧
        (handle_set now st (key :: value :: rest)).1.replicas =
          fanout st.replicas ("SET" :: key :: value :: rest) ∧
        (handle_set now st (key :: value :: rest)).2 = "+OK\r\n") ∧
    (∀ st cmd, st.replicas ≠ [] →
      (replicate_command st cmd).master_replication_offset =
        st.master_replication_offset + (serialize_resp_array cmd).utf8ByteSize) ∧
    (∀ st cmd, st.replicas = [] →
      (replicate_command st cmd).master_replication_offset =
        st.master_replication_offset) ∧
    (∀ st cmd, (replicate_command st cmd).replicas = fanout st.replicas cmd) ∧
    (∀ st args,
      (handle_incr st args).1.master_replication_offset =
        st.master_replication_offset) ∧
    (∀ b st args,
      (handle_lpush_rpush b st args).1.master_replication_offset =
        st.master_replication_offset) ∧
    (∀ st args,
      (handle_lpop st args).1.master_replication_offset =
        st.master_replication_offset) ∧
    (∀ st key rest entry, st.db key = some entry →
      (handle_incr st (key :: rest)).1.replicas = st.replicas) ∧
    (∀ st key rest, st.db key = none →
      (handle_incr st (key :: rest)).1.replicas =
        fanout st.replicas ("INCR" :: key :: rest)) ∧
    (∀ b st key e0 rest entry l, st.db key = some entry → entry.value = .list l →
      (handle_lpush_rpush b st (key :: e0 :: rest)).1.replicas =
        fanout st.replicas ((if b then "LPUSH" else "RPUSH") :: key :: e0 :: rest)) ∧
    (∀ b st key e0 rest, st.db key = none →
      (handle_lpush_rpush b st (key :: e0 :: rest)).1.replicas =
        fanout st.replicas ((if b then "LPUSH" else "RPUSH") :: key :: e0 :: rest)) ∧
    (∀ st key entry x xs, st.db key = some entry → entry.value = .list (x :: xs) →
      (handle_lpop st [key]).1.replicas = fanout st.replicas ("LPOP" :: [key])) ∧
    (∀ st key cnt_str rest entry l cnt, st.db key = some entry → entry.value = .list l →
      rust_parse_u (2 ^ 32) cnt_str = some cnt → cnt ≤ l.length →
      (handle_lpop st (key :: cnt_str :: rest)).1.replicas =
        fanout st.replicas ("LPOP" :: key :: cnt_str :: rest)) ∧
    (∀ st key rest entry, st.db key = some entry →
      ((∃ v, entry.value = .string v) ∨ (∃ sv, entry.value = .stream sv)) →
      (handle_lpop st (key :: rest)).1.replicas =
        fanout st.replicas ("LPOP" :: key :: rest)) ∧
    ((handle_xadd 0 master_with_one_replica ["s", "1-1", "a", "1"]).1.master_replication_offset =
      (serialize_resp_array ["XADD", "s", "1-1", "a", "1"]).utf8ByteSize) := by
  refine ⟨?_, ?_, ?_, ?_, ?_, ?_, ?_, ?_, ?_, ?_, ?_, ?_, ?_, ?_, ?_⟩
  · intro now st key value rest
    exact ⟨rfl, rfl, rfl⟩
  · intro st cmd h
    rw [replicate_command]
    have hne : (fanout st.replicas cmd).isEmpty = false := by
      rcases hr : st.replicas with _ | ⟨r, rs⟩
      · exact absurd hr h
      · rfl
    simp only [hne, Bool.false_eq_true, if_false]
  · intro st cmd h
    rw [replicate_command]
    have he : (fanout st.replicas cmd).isEmpty = true := by rw [fanout, h]; rfl
    simp only [he, if_true]
  · intro st cmd
    rw [replicate_command]
    by_cases h : (fanout st.replicas cmd).isEmpty <;> simp [h]
  · intro st args
    unfold handle_incr
    repeat' split
    all_goals rfl
  · intro b st args
    unfold handle_lpush_rpush do_push
    repeat' split
    all_goals rfl
  · intro st args
    unfold handle_lpop
    repeat' split
    all_goals rfl
  · intro st key rest entry hdb
    unfold handle_incr
    simp only [hdb]
    repeat' split
    all_goals rfl
  · intro st key rest hdb
    unfold handle_incr
    simp only [hdb]
  · intro b st key e0 rest entry l hdb hl
    unfold handle_lpush_rpush do_push
    simp only [hdb, hl]
  · intro b st key e0 rest hdb
    unfold handle_lpush_rpush do_push
    simp only [hdb]
  · intro st key entry x xs hdb hl
    unfold handle_lpop
    simp only [hdb, hl]
  · intro st key cnt_str rest entry l cnt hdb hl hparse hle
    unfold handle_lpop
    simp only [hdb, hl, hparse]
    rw [if_pos hle]
  · intro st key rest entry hdb hv
    rcases hv with ⟨v, hl⟩ | ⟨sv, hl⟩
    · unfold handle_lpop
      simp only [hdb, hl]
    · unfold handle_lpop
      simp only [hdb, hl]
  · decide

/-- Witness for `set_propagation_amended` at a concrete input: with one
connected replica, `replicate_command` on `SET a b` advances the offset
by the 27 serialized bytes, and INCR on the existing key `k` (holding
"1") writes to no replica. -/
theorem set_propagation_amended_witness :
    master_with_one_replica.replicas ≠ [] ∧
    (replicate_command master_with_one_replica ["SET", "a", "b"]).master_replication_offset =
      master_with_one_replica.master_replication_offset +
        (serialize_resp_array ["SET", "a", "b"]).utf8ByteSize ∧
    (handle_incr (handle_set 0 master_with_one_replica ["k", "1"]).1 ["k"]).1.replicas =
      (handle_set 0 master_with_one_replica ["k", "1"]).1.replicas :=
  ⟨by decide,
    set_propagation_amended.2.1 master_with_one_replica ["SET", "a", "b"] (by decide),
    set_propagation_amended.2.2.2.2.2.2.2.1 (handle_set 0 master_with_one_replica ["k", "1"]).1
      "k" [] { value := .string "1", expires_at := none } (by decide)⟩

/-! Claim C2. -/

/-- C2 (the code against the claim): a `REPLCONF ACK 31` frame leaves
the whole server state — in particular every recorded replica offset —
unchanged and is answered with `+OK\r\n` on the connection.
`handle_replconf` has no `ACK` arm (the frame falls through to the
catch-all `+OK`), so the claimed `offset = max(offset, n)` update does
not exist, and the claimed silence does not hold. -/
theorem replconf_ack_ignored :
    ∀ fuel now st ts, ts.in_transaction = false →
      handle_command (fuel + 1) now st ts ["REPLCONF", "ACK", "31"] =
        (st, ts, .ok "+OK\r\n") := by
  intro fuel now st ts h
  simp only [handle_command, h]
  rw [if_neg (by simp)]
  rfl

/-- Witness for `replconf_ack_ignored` at a concrete state. -/
theorem replconf_ack_ignored_witness :
    handle_command 1 0 master_with_one_replica ⟨false, []⟩ ["REPLCONF", "ACK", "31"] =
      (master_with_one_replica, ⟨false, []⟩, .ok "+OK\r\n") :=
  replconf_ack_ignored 0 0 master_with_one_replica ⟨false, []⟩ rfl

/-! Claim C3. -/

theorem xadd_generate_bounds {now : Nat} {sv : StreamV} {id : String} {ts seq : Nat}
    (h : xadd_generate now sv id = .gen ts seq) (hnow : now < 2 ^ 128) :
    ts < 2 ^ 128 ∧ seq < 2 ^ 64 := by
  unfold xadd_generate at h
  split at h
  · cases h
    exact ⟨hnow, by positivity⟩
  · split at h
    · simp at h
    · split at h
      · split at h
        · split at h
          · rename_i hguard
            cases h
            exact ⟨parse_u_or0_lt _ _ (by positivity), hguard⟩
          · simp at h
        · cases h
          exact ⟨parse_u_or0_lt _ _ (by positivity), by positivity⟩
      · cases h
        exact ⟨parse_u_or0_lt _ _ (by positivity), parse_u_or0_lt _ _ (by positivity)⟩

theorem xadd_apply_gen_eq {now : Nat} {s : StreamV} {id : String} {f : Fields}
    {ts seq : Nat} (hg : xadd_generate now s id = .gen ts seq) :
    xadd_apply now s id f =
      (if seq = 0 ∧ ts = 0 then (s, .rejected zero_id_err)
       else if ts < (last_pair s).1 ∨ (ts = (last_pair s).1 ∧ seq ≤ (last_pair s).2) then
         (s, .rejected not_greater_err)
       else ({ entries := btInsert (id_string ts seq) f s.entries,
               last_id := id_string ts seq }, .accepted (id_string ts seq))) := by
  unfold xadd_apply
  split
  · rename_i heq
    rw [hg] at heq
    simp at heq
  · rename_i heq
    rw [hg] at heq
    simp at heq
  · rename_i ts' seq' heq
    rw [hg] at heq
    injection heq with e1 e2
    subst e1
    subst e2
    rfl

theorem xadd_apply_accepted {now : Nat} {s s1 : StreamV} {id : String} {f : Fields}
    {out : String} (h : xadd_apply now s id f = (s1, .accepted out)) :
    ∃ ts seq, xadd_generate now s id = .gen ts seq ∧
      ¬(seq = 0 ∧ ts = 0) ∧
      ¬(ts < (last_pair s).1 ∨ (ts = (last_pair s).1 ∧ seq ≤ (last_pair s).2)) ∧
      out = id_string ts seq ∧
      s1 = { entries := btInsert (id_string ts seq) f s.entries,
             last_id := id_string ts seq } := by
  rcases hg : xadd_generate now s id with _ | _ | ⟨ts, seq⟩
  · unfold xadd_apply at h
    rw [hg] at h
    simp at h
  · unfold xadd_apply at h
    rw [hg] at h
    simp at h
  · rw [xadd_apply_gen_eq hg] at h
    split at h
    · simp at h
    · split at h
      · simp at h
      · rename_i hz hng
        injection h with h1 h2
        injection h2 with h2
        exact ⟨ts, seq, rfl, hz, hng, h2.symm, h1.symm⟩

/-- C3: IDs returned by successive successful XADDs on a stream are
strictly increasing as (ms, seq) integer pairs; a generated id that is
lexicographically ≤ the stream's `last_id` (other than 0-0, checked
first) is rejected with the "equal or smaller" error and the stream is
unchanged; a generated 0-0 is rejected with the "greater than 0-0"
error; and a success updates `last_id` to the inserted (strictly
greater) id. -/
theorem xadd_monotonic :
    (∀ now1 now2 s s1 s2 id1 id2 f1 f2 out1 out2,
      now1 < 2 ^ 128 → now2 < 2 ^ 128 →
      xadd_apply now1 s id1 f1 = (s1, .accepted out1) →
      xadd_apply now2 s1 id2 f2 = (s2, .accepted out2) →
      pair_lt (id_pair out1) (id_pair out2)) ∧
    (∀ now s id f ts seq,
      xadd_generate now s id = .gen ts seq →
      ¬(seq = 0 ∧ ts = 0) →
      pair_le (ts, seq) (last_pair s) →
      xadd_apply now s id f = (s, .rejected not_greater_err)) ∧
    (∀ now s id f,
      xadd_generate now s id = .gen 0 0 →
      xadd_apply now s id f = (s, .rejected zero_id_err)) ∧
    (∀ now s s1 id f out, now < 2 ^ 128 →
      xadd_apply now s id f = (s1, .accepted out) →
      s1.last_id = out ∧ pair_lt (last_pair s) (id_pair out)) := by
  have key : ∀ now s s1 id f out, now < 2 ^ 128 →
      xadd_apply now s id f = (s1, .accepted out) →
      s1.last_id = out ∧ pair_lt (last_pair s) (id_pair out) ∧
        last_pair s1 = id_pair out := by
    intro now s s1 id f out hnow hx
    obtain ⟨ts, seq, hg, hz, hng, hout, hs1⟩ := xadd_apply_accepted hx
    obtain ⟨hbt, hbs⟩ := xadd_generate_bounds hg hnow
    have hid : id_pair out = (ts, seq) := by rw [hout]; exact id_pair_id_string hbt hbs
    refine ⟨by rw [hs1, hout], ?_, ?_⟩
    · rw [hid, pair_lt]
      rcases hp : last_pair s with ⟨lts, lseq⟩
      rw [hp] at hng
      simp only at hng ⊢
      omega
    · rw [hs1, hid]
      show id_pair (id_string ts seq) = (ts, seq)
      exact id_pair_id_string hbt hbs
  refine ⟨?_, ?_, ?_, ?_⟩
  · intro now1 now2 s s1 s2 id1 id2 f1 f2 out1 out2 h1 h2 hx1 hx2
    obtain ⟨_, _, hlast1⟩ := key now1 s s1 id1 f1 out1 h1 hx1
    obtain ⟨_, hlt2, _⟩ := key now2 s1 s2 id2 f2 out2 h2 hx2
    rw [hlast1] at hlt2
    exact hlt2
  · intro now s id f ts seq hg hz hle
    have hle' : ts < (last_pair s).1 ∨ (ts = (last_pair s).1 ∧ seq ≤ (last_pair s).2) := hle
    rw [xadd_apply_gen_eq hg, if_neg hz, if_pos hle']
  · intro now s id f hg
    rw [xadd_apply_gen_eq hg, if_pos ⟨rfl, rfl⟩]
  · intro now s s1 id f out hnow hx
    obtain ⟨ha, hb, _⟩ := key now s s1 id f out hnow hx
    exact ⟨ha, hb⟩

/-- Witness for `xadd_monotonic` on the concrete session `XADD s 1-1`,
`XADD s 1-2` (strict increase) and the rejected `XADD s 1-1` replay. -/
theorem xadd_monotonic_witness :
    pair_lt (id_pair "1-1") (id_pair "1-2") ∧
    xadd_apply 0 ⟨[("1-1", [("a", "1")])], "1-1"⟩ "1-1" [("a", "3")] =
      (⟨[("1-1", [("a", "1")])], "1-1"⟩, .rejected not_greater_err) := by
  constructor
  · exact xadd_monotonic.1 0 0 ⟨[], "0-0"⟩ ⟨[("1-1", [("a", "1")])], "1-1"⟩
      ⟨[("1-1", [("a", "1")]), ("1-2", [("a", "2")])], "1-2"⟩ "1-1" "1-2"
      [("a", "1")] [("a", "2")] "1-1" "1-2" (by decide) (by decide) (by decide) (by decide)
  · exact xadd_monotonic.2.1 0 ⟨[("1-1", [("a", "1")])], "1-1"⟩ "1-1" [("a", "3")] 1 1
      (by decide) (by decide) (by decide)

/-! Claim C4. -/

/-- The state after `XADD s 9-1 a 1; XADD s 10-1 a 2` on the master. -/
def nine_ten_state : AppState :=
  (handle_xadd 0 (handle_xadd 0 master_with_one_replica ["s", "9-1", "a", "1"]).1
    ["s", "10-1", "a", "2"]).1

/-- The stream value those two XADDs build. -/
def nine_ten_stream : StreamV :=
  ⟨[("10-1", [("a", "2")]), ("9-1", [("a", "1")])], "10-1"⟩

/-- C4 (the code against the claim): after `XADD s 9-1 a 1` and
`XADD s 10-1 a 2` (both accepted), the stream's entries container —
keyed by the raw id text — iterates `10-1` before `9-1`, and
`XRANGE s - +` returns `10-1` first, although numerically
(9,1) < (10,1): textual sort does not equal numeric sort, so iteration
is not in ascending (ms, seq) order. -/
theorem stream_textual_order_violation :
    (handle_xadd 0 master_with_one_replica ["s", "9-1", "a", "1"]).2 =
      .ok (bulk_string "9-1") ∧
    (handle_xadd 0 (handle_xadd 0 master_with_one_replica ["s", "9-1", "a", "1"]).1
        ["s", "10-1", "a", "2"]).2 = .ok (bulk_string "10-1") ∧
    nine_ten_state.db "s" = some { value := .stream nine_ten_stream, expires_at := none } ∧
    nine_ten_stream.entries.map Prod.fst = ["10-1", "9-1"] ∧
    handle_xrange nine_ten_state ["s", "-", "+"] =
      "*2\r\n*2\r\n$4\r\n10-1\r\n*2\r\n$1\r\na\r\n$1\r\n2\r\n" ++
        "*2\r\n$3\r\n9-1\r\n*2\r\n$1\r\na\r\n$1\r\n1\r\n" ∧
    pair_lt (id_pair "9-1") (id_pair "10-1") ∧
    ¬ pair_lt (id_pair "10-1") (id_pair "9-1") := by
  decide

/-! Claim C5. -/

/-- A stream whose last inserted entry is `5-0`. -/
def five_zero_stream : StreamV := ⟨[("5-0", [("a", "1")])], "5-0"⟩

/-- C5 (the code against the claim): with `last_id = 5-0` and the wall
clock at ms 5, `XADD <key> *` generates (5, 0) — seq is always 0 for
`*`, there is no `last_id.seq + 1` exception — so the command is
rejected as non-increasing instead of succeeding with `5-1`; the
exception exists only for the explicit `ms-*` form, which does generate
(5, 1). -/
theorem xadd_star_no_seq_bump :
    (xadd_apply 0 ⟨[], "0-0"⟩ "5-0" [("a", "1")]).1 = five_zero_stream ∧
    xadd_generate 5 five_zero_stream "*" = .gen 5 0 ∧
    xadd_apply 5 five_zero_stream "*" [("a", "2")] =
      (five_zero_stream, .rejected not_greater_err) ∧
    xadd_generate 0 five_zero_stream "5-*" = .gen 5 1 := by
  decide

/-! Claim C6. -/

/-- C6 counterexample (ordering): in the pusher's event trace the
one-shot signal to the selected waiter is sent while the Store lock is
still held — `signal_waiter` precedes `release_store` — whereas the
claim requires the lock release to precede the signal. -/
theorem push_signal_order_counterexample :
    (lpush_event_trace true).indexOf .signal_waiter <
      (lpush_event_trace true).indexOf .release_store ∧
    ¬ ((lpush_event_trace true).indexOf .release_store <
        (lpush_event_trace true).indexOf .signal_waiter) := by
  decide

/-- C6 (amended): the pusher, under the Store lock, selects at most one
waiter (the front of the key's FIFO queue), performs the push, and then
signals — releasing the lock only when the handler returns; and when
the woken client's pop is the next operation on the key, its reply
carries the element at the head of the list at the instant of the
signal (the post-push head, the push having happened before the signal
in the same critical section), and the list length decreases by exactly
one for the wake. -/
theorem blpop_handoff_amended :
    ∀ is_lpush elems l w ws, elems ≠ [] →
      (push_critical is_lpush elems ⟨l, w :: ws⟩).2 = some w ∧
      (push_critical is_lpush elems ⟨l, w :: ws⟩).1.waiters = ws ∧
      ∃ x xs, (push_critical is_lpush elems ⟨l, w :: ws⟩).1.list = x :: xs ∧
        wake_pop (push_critical is_lpush elems ⟨l, w :: ws⟩).1 = (⟨xs, ws⟩, some x) ∧
        xs.length + 1 = (push_critical is_lpush elems ⟨l, w :: ws⟩).1.list.length := by
  intro is_lpush elems l w ws he
  have hp : 0 < elems.length := List.length_pos.mpr he
  refine ⟨rfl, rfl, ?_⟩
  have hne : (push_critical is_lpush elems ⟨l, w :: ws⟩).1.list ≠ [] := by
    intro hnil
    have hlen := congrArg List.length hnil
    cases is_lpush with
    | false =>
      simp only [push_critical, if_false, Bool.false_eq_true, List.length_append,
        List.length_nil] at hlen
      omega
    | true =>
      simp only [push_critical, if_true, push_foldl_length, List.length_nil] at hlen
      omega
  obtain ⟨x, xs, hxs⟩ := List.exists_cons_of_ne_nil hne
  have hrec : (push_critical is_lpush elems ⟨l, w :: ws⟩).1 = ⟨x :: xs, ws⟩ := by
    rw [← hxs]
    rfl
  refine ⟨x, xs, hxs, ?_, by rw [hxs]; rfl⟩
  rw [hrec]
  rfl

/-- Witness for `blpop_handoff_amended`: `RPUSH q hello` with one
waiter `w1` registered on the empty list `q`. -/
theorem blpop_handoff_amended_witness :
    (push_critical false ["hello"] ⟨[], ["w1"]⟩).2 = some "w1" ∧
    (push_critical false ["hello"] ⟨[], ["w1"]⟩).1.waiters = [] ∧
    ∃ x xs, (push_critical false ["hello"] ⟨[], ["w1"]⟩).1.list = x :: xs ∧
      wake_pop (push_critical false ["hello"] ⟨[], ["w1"]⟩).1 = (⟨xs, []⟩, some x) ∧
      xs.length + 1 = (push_critical false ["hello"] ⟨[], ["w1"]⟩).1.list.length :=
  blpop_handoff_amended false ["hello"] [] "w1" [] (by decide)

/-! Claim C7. -/

theorem run_sequence_queued :
    ∀ (cmds : List (List String)) fuel now st (ts : TransactionState),
      ts.in_transaction = true →
      (∀ c ∈ cmds, c ≠ [] ∧
        str_to_upper (c.getD 0 "") ∉ (["MULTI", "EXEC", "DISCARD"] : List String)) →
      run_sequence (handle_command (fuel + 1) now) st ts cmds =
        (st, { ts with queued_commands := ts.queued_commands ++ cmds },
          cmds.map (fun _ => .ok "+QUEUED\r\n")) := by
  intro cmds
  induction cmds with
  | nil =>
    intro fuel now st ts hts _
    simp [run_sequence]
  | cons c cs ih =>
    intro fuel now st ts hts hall
    obtain ⟨hcne, hcverb⟩ := hall c (List.mem_cons_self c cs)
    simp only [List.mem_cons, not_or] at hcverb
    obtain ⟨c0, crest, rfl⟩ := List.exists_cons_of_ne_nil hcne
    have hstep : handle_command (fuel + 1) now st ts (c0 :: crest) =
        (st, { ts with queued_commands := ts.queued_commands ++ [c0 :: crest] },
          .ok "+QUEUED\r\n") := by
      simp only [handle_command]
      rw [if_pos ⟨hts, hcverb.1, hcverb.2.1, hcverb.2.2.1⟩]
    simp only [run_sequence, hstep]
    rw [ih fuel now st { ts with queued_commands := ts.queued_commands ++ [c0 :: crest] }
      hts (fun c' hc' => hall c' (List.mem_cons_of_mem _ hc'))]
    simp [List.append_assoc]

theorem run_queued_eq_run_sequence :
    ∀ (cmds : List (List String)) run st (ts : TransactionState) (resps : List String),
      (run_sequence run st ts cmds).2.2 = resps.map HResult.ok →
      run_queued_with run st ts cmds =
        ((run_sequence run st ts cmds).1, (run_sequence run st ts cmds).2.1,
          .ok (concat_strings resps)) := by
  intro cmds
  induction cmds with
  | nil =>
    intro run st ts resps h
    simp only [run_sequence] at h
    cases resps with
    | nil => rfl
    | cons r rs => simp at h
  | cons c cs ih =>
    intro run st ts resps h
    simp only [run_sequence] at h
    cases resps with
    | nil => simp at h
    | cons r0 rs =>
      simp only [List.map_cons] at h
      injection h with h0 hrest
      have hr : run st ts c = ((run st ts c).1, ((run st ts c).2.1, .ok r0)) := by
        rw [← h0]
      rw [run_queued_with, hr]
      dsimp only
      rw [ih run (run st ts c).1 (run st ts c).2.1 rs hrest]
      simp only [run_sequence]
      rfl

/-- C7: a connection in the QUEUEING state built by MULTI followed by
any commands (none of them MULTI/EXEC/DISCARD, each replied `+QUEUED`
and none of them touching the store while queued) is returned to NORMAL
by EXEC; an empty queue is answered `*0\r\n`; a non-empty queue is
replayed in order against the live store — with transaction state
suppressed, yielding exactly the states and responses of running the
same commands directly — under the envelope `*N\r\n` followed by the
concatenated captured responses. -/
theorem exec_replays_queue :
    ∀ fuel now st (ts0 : TransactionState) cmds resps,
      (∀ c ∈ cmds, c ≠ [] ∧
        str_to_upper (c.getD 0 "") ∉ (["MULTI", "EXEC", "DISCARD"] : List String)) →
      (run_sequence (handle_command fuel now) st ⟨false, []⟩ cmds).2.2 =
        resps.map HResult.ok →
      handle_command (fuel + 1) now st ts0 ["MULTI"] = (st, ⟨true, []⟩, .ok "+OK\r\n") ∧
      run_sequence (handle_command (fuel + 1) now) st ⟨true, []⟩ cmds =
        (st, ⟨true, cmds⟩, cmds.map (fun _ => .ok "+QUEUED\r\n")) ∧
      handle_command (fuel + 1) now st ⟨true, []⟩ ["EXEC"] =
        (st, ⟨false, []⟩, .ok "*0\r\n") ∧
      (cmds ≠ [] →
        handle_command (fuel + 1) now st ⟨true, cmds⟩ ["EXEC"] =
          ((run_sequence (handle_command fuel now) st ⟨false, []⟩ cmds).1,
            (run_sequence (handle_command fuel now) st ⟨false, []⟩ cmds).2.1,
            .ok ("*" ++ natRepr cmds.length ++ crlf ++ concat_strings resps))) := by
  intro fuel now st ts0 cmds resps hall hresp
  refine ⟨?_, ?_, ?_, ?_⟩
  · simp only [handle_command]
    rw [if_neg (fun hcond => hcond.2.1 rfl)]
    rfl
  · have h := run_sequence_queued cmds fuel now st ⟨true, []⟩ rfl hall
    simpa using h
  · simp only [handle_command]
    rw [if_neg (fun hcond => hcond.2.2.1 rfl)]
    rfl
  · intro hne
    simp only [handle_command]
    rw [if_neg (fun hcond => hcond.2.2.1 rfl)]
    show handle_exec_with (handle_command fuel now) st ⟨true, cmds⟩ = _
    rw [handle_exec_with]
    rw [if_neg (by simp)]
    have hie : (⟨true, cmds⟩ : TransactionState).queued_commands.isEmpty = false := by
      cases cmds with
      | nil => exact absurd rfl hne
      | cons a l => rfl
    rw [if_neg (by simp [hie])]
    show (match run_queued_with (handle_command fuel now) st ⟨false, []⟩ cmds with
      | (st2, ts2, HResult.ok acc) =>
        (st2, ts2, HResult.ok ("*" ++ natRepr cmds.length ++ crlf ++ acc))
      | ab => ab) = _
    rw [run_queued_eq_run_sequence cmds (handle_command fuel now) st ⟨false, []⟩ resps hresp]

/-- Witness for `exec_replays_queue`: the session MULTI, `SET k 1`,
`INCR k`, EXEC produces the envelope `*2\r\n+OK\r\n:2\r\n`. -/
theorem exec_replays_queue_witness :
    handle_command 2 0 master_with_one_replica ⟨true, [["SET", "k", "1"], ["INCR", "k"]]⟩
        ["EXEC"] =
      ((run_sequence (handle_command 1 0) master_with_one_replica ⟨false, []⟩
          [["SET", "k", "1"], ["INCR", "k"]]).1,
        (run_sequence (handle_command 1 0) master_with_one_replica ⟨false, []⟩
          [["SET", "k", "1"], ["INCR", "k"]]).2.1,
        .ok ("*" ++ natRepr 2 ++ crlf ++ concat_strings ["+OK\r\n", ":2\r\n"])) ∧
    "*" ++ natRepr 2 ++ crlf ++ concat_strings ["+OK\r\n", ":2\r\n"] =
      "*2\r\n+OK\r\n:2\r\n" :=
  ⟨(exec_replays_queue 1 0 master_with_one_replica ⟨false, []⟩
      [["SET", "k", "1"], ["INCR", "k"]] ["+OK\r\n", ":2\r\n"]
      (by decide) (by decide)).2.2.2 (by decide),
    by decide⟩

/-! Claim C8. -/

/-- C8: `SET key value PX ms` stores the value with absolute expiration
`now + ms`; a GET strictly before the deadline returns the value and
leaves the state untouched; a GET strictly after the deadline returns
nil and removes the key, so subsequent accesses observe it as absent. -/
theorem set_px_get_expiry :
    ∀ now0 now1 now2 (st : AppState) key value ms,
      ms < 2 ^ 64 →
      ((handle_set now0 st [key, value, "PX", natRepr ms]).1.db key =
        some { value := .string value, expires_at := some (now0 + ms) }) ∧
      (now1 < now0 + ms →
        (handle_get now1 (handle_set now0 st [key, value, "PX", natRepr ms]).1 [key]).2 =
            bulk_string value ∧
          (handle_get now1 (handle_set now0 st [key, value, "PX", natRepr ms]).1 [key]).1 =
            (handle_set now0 st [key, value, "PX", natRepr ms]).1) ∧
      (now0 + ms < now2 →
        (handle_get now2 (handle_set now0 st [key, value, "PX", natRepr ms]).1 [key]).2 =
            null_bulk ∧
          (handle_get now2 (handle_set now0 st [key, value, "PX", natRepr ms]).1 [key]).1.db
              key = none) := by
  intro now0 now1 now2 st key value ms hms
  have hpx : rust_parse_u (2 ^ 64) (natRepr ms) = some ms := rust_parse_u_natRepr hms
  have hset : handle_set now0 st [key, value, "PX", natRepr ms] =
      ({ st with
          db := dbInsert st.db key { value := .string value, expires_at := some (now0 + ms) }
          replicas := fanout st.replicas ("SET" :: [key, value, "PX", natRepr ms]) },
        "+OK\r\n") := by
    unfold handle_set
    rw [if_pos ⟨(by simp : (2 : Nat) < [key, value, "PX", natRepr ms].length), rfl⟩,
      if_pos (by simp : (3 : Nat) < [key, value, "PX", natRepr ms].length)]
    have hpx' : rust_parse_u (2 ^ 64) ([key, value, "PX", natRepr ms].getD 3 "") = some ms :=
      hpx
    rw [hpx']
  have hdb : (handle_set now0 st [key, value, "PX", natRepr ms]).1.db key =
      some { value := .string value, expires_at := some (now0 + ms) } := by
    rw [hset]
    simp [dbInsert]
  refine ⟨hdb, ?_, ?_⟩
  · intro hlt
    have hexp : is_expired (some (now0 + ms)) now1 = false := by
      simp only [is_expired, decide_eq_false_iff_not]
      omega
    constructor
    · unfold handle_get
      simp only [hdb, hexp]
      rfl
    · unfold handle_get
      simp only [hdb, hexp]
      rfl
  · intro hgt
    have hexp : is_expired (some (now0 + ms)) now2 = true := by
      simp only [is_expired, decide_eq_true_eq]
      omega
    constructor
    · unfold handle_get
      simp only [hdb, hexp]
      rfl
    · unfold handle_get
      simp only [hdb, hexp]
      simp [dbRemove]

/-- Witness for `set_px_get_expiry`: `SET k v PX 100` at ms 0, GET at
ms 50 (before the deadline) and at ms 200 (after the deadline). -/
theorem set_px_get_expiry_witness :
    ((handle_set 0 master_with_one_replica ["k", "v", "PX", natRepr 100]).1.db "k" =
      some { value := .string "v", expires_at := some (0 + 100) }) ∧
    (handle_get 50 (handle_set 0 master_with_one_replica ["k", "v", "PX", natRepr 100]).1
        ["k"]).2 = bulk_string "v" ∧
    (handle_get 200 (handle_set 0 master_with_one_replica ["k", "v", "PX", natRepr 100]).1
        ["k"]).2 = null_bulk ∧
    (handle_get 200 (handle_set 0 master_with_one_replica ["k", "v", "PX", natRepr 100]).1
        ["k"]).1.db "k" = none :=
  have h := set_px_get_expiry 0 50 200 master_with_one_replica "k" "v" 100 (by decide)
  ⟨h.1, (h.2.1 (by decide)).1, (h.2.2 (by decide)).1, (h.2.2 (by decide)).2⟩

/-! Claim C9. -/

/-- C9 (the code against the claim): LPOP with a count argument is not
total.  On the two-element list `k = ["x", "y"]`, `LPOP k abc` panics
(the count is taken with `parse::<u32>().unwrap()` and no
numeric-range error is returned), and `LPOP k 5` removes every element
and then panics calling `Vec::remove(0)` on the now-empty list; the
in-range `LPOP k 2` is the only well-behaved count path. -/
theorem lpop_count_panics :
    (handle_lpop two_list_state ["k", "abc"]).2 = .panic ∧
    (handle_lpop two_list_state ["k", "abc"]).1 = two_list_state ∧
    (handle_lpop two_list_state ["k", "5"]).2 = .panic ∧
    (handle_lpop two_list_state ["k", "5"]).1.db "k" =
      some { value := .list [], expires_at := none } ∧
    (handle_lpop two_list_state ["k", "2"]).2 =
      .ok ("*2\r\n" ++ bulk_string "x" ++ bulk_string "y") := by
  refine ⟨?_, ?_, ?_, ?_, ?_⟩
  · decide
  · rfl
  · decide
  · decide
  · decide

/-! Claim C10. -/

/-- C10: GET on a key holding a non-expired List or Stream value
replies the WRONGTYPE error and leaves the whole state (in particular
the store entry) unchanged. -/
theorem get_wrongtype :
    ∀ now (st : AppState) key entry,
      st.db key = some entry →
      is_expired entry.expires_at now = false →
      ((∃ l, entry.value = .list l) ∨ (∃ sv, entry.value = .stream sv)) →
      handle_get now st [key] = (st, wrongtype_err) := by
  intro now st key entry hdb hexp hv
  rcases hv with ⟨l, hl⟩ | ⟨sv, hl⟩
  · unfold handle_get
    simp only [hdb, hexp, hl]
    rfl
  · unfold handle_get
    simp only [hdb, hexp, hl]
    rfl

/-- Witness for `get_wrongtype`: GET on the key `k` holding the list
`["x"]` with no expiration. -/
theorem get_wrongtype_witness :
    handle_get 0 list_state ["k"] = (list_state, wrongtype_err) :=
  get_wrongtype 0 list_state "k" { value := .list ["x"], expires_at := none }
    (by decide) (by decide) (.inl ⟨["x"], rfl⟩)

end Redust
